import Mathlib

/-!
Verification of the weekly digest pipeline
(`src/final_weekly_digest_system.py`).

The Python source is shallowly embedded: strings are `String`/`List Char`,
Python float values are idealised as `ℚ` (the classifier only adds and
compares small decimal constants), `None`-able values are `Option`, and
code that can raise is embedded as `Except`.  Python-specific behaviours
(truthiness of optional fields, `str.find`, `str.strip`, slicing,
`float(...)` parsing of plain decimal literals, the regular expressions
used by the source) are modelled by the explicit executable functions
below.
-/

set_option maxRecDepth 10000

namespace WeeklyDigest

/-! ## Characters and Python string primitives -/

/-- ASCII decimal digit, the regex class `\d` restricted to ASCII as the
source's patterns use it. -/
def isDigitCh (c : Char) : Bool := ('0' ≤ c) && (c ≤ '9')

/-- ASCII uppercase letter, the regex class `[A-Z]`. -/
def isUpperCh (c : Char) : Bool := ('A' ≤ c) && (c ≤ 'Z')

/-- ASCII word character, the regex class `\w` as it applies to the
source's ASCII patterns: letters, digits and underscore. -/
def isWordCh (c : Char) : Bool :=
  isDigitCh c || isUpperCh c || (('a' ≤ c) && (c ≤ 'z')) || c == '_'

/-- Uppercase letter or digit, the regex class `[A-Z0-9]` of the user
mention patterns. -/
def isUpperDigitCh (c : Char) : Bool := isUpperCh c || isDigitCh c

/-- The whitespace characters Python `str.strip()` removes. -/
def isSpaceCh (c : Char) : Bool :=
  c == ' ' || c == '\t' || c == '\n' || c == '\r' || c.toNat == 11 || c.toNat == 12

/-- `str.lower()` on one character, for the ASCII range the source's
keyword matching relies on. -/
def lowerCh (c : Char) : Char :=
  if isUpperCh c then Char.ofNat (c.toNat + 32) else c

/-- `text.lower()` as a character list. -/
def pyLowerS (s : String) : List Char := s.data.map lowerCh

/-- Does the needle (first argument) occur at the very start of the
haystack (second argument)? -/
def matchHere : List Char → List Char → Bool
  | [], _ => true
  | _ :: _, [] => false
  | a :: as, b :: bs => a == b && matchHere as bs

/-- Python `needle in hay` for strings: some suffix of `hay` starts with
`needle`. -/
def strHasL : List Char → List Char → Bool
  | hay, needle =>
    match hay with
    | [] => matchHere needle []
    | _ :: t => matchHere needle hay || strHasL t needle

/-- Index of the first occurrence of `needle` in `hay`
(Python `hay.find(needle)`, with `none` for -1). -/
def findIdxL : List Char → List Char → Option Nat
  | hay, needle =>
    match hay with
    | [] => if matchHere needle [] then some 0 else none
    | _ :: t =>
      if matchHere needle hay then some 0
      else (findIdxL t needle).map (fun n => n + 1)

/-- Python `hay.find(needle, start)`: first occurrence at or after
`start`. -/
def findFromL (hay needle : List Char) (start : Nat) : Option Nat :=
  (findIdxL (hay.drop start) needle).map (fun n => n + start)

/-- Python slice `l[a:b]` for `a ≤ b` (the only way the source slices). -/
def pySliceL (l : List Char) (a b : Nat) : List Char :=
  (l.drop a).take (b - a)

/-- Python `str.strip()`. -/
def pyStripL (l : List Char) : List Char :=
  ((l.dropWhile isSpaceCh).reverse.dropWhile isSpaceCh).reverse

/-- Python `str.replace(Char.ofNat 42, emptyString)`: drop every asterisk. -/
def stripStars (l : List Char) : List Char := l.filter (fun c => !(c == '*'))

/-- Python `any(word in text for word in kws)` over a lower-cased
character list. -/
def anyKeywordIn (kws : List String) (t : List Char) : Bool :=
  kws.any (fun k => strHasL t k.data)

/-! ## Python `float(...)` on plain decimal literals

Slack timestamps are decimal strings such as "1712345678.123456"; the
model accepts an optional sign, digits, and an optional fractional part,
returning the exact rational value.  Scientific notation, inf/nan,
underscores and surrounding whitespace — which `float` also accepts but
which never occur in timestamps — are outside the model. -/

/-- Split a character list at its first dot. -/
def splitDot : List Char → List Char × Option (List Char)
  | [] => ([], none)
  | c :: rest =>
    if c == '.' then ([], some rest)
    else
      let p := splitDot rest
      (c :: p.1, p.2)

/-- Numeric value of a digit list. -/
def natOfDigits (l : List Char) : Nat :=
  l.foldl (fun a c => a * 10 + (c.toNat - 48)) 0

/-- The unsigned body of a decimal literal, as an exact rational. -/
def pyFloatUnsigned (cs : List Char) : Option ℚ :=
  let p := splitDot cs
  match p.2 with
  | none =>
    if cs.isEmpty || !(cs.all isDigitCh) then none
    else some ((natOfDigits cs : ℚ))
  | some frac =>
    if (p.1.isEmpty && frac.isEmpty) || !(p.1.all isDigitCh) || !(frac.all isDigitCh)
    then none
    else some ((natOfDigits p.1 : ℚ) + (natOfDigits frac : ℚ) / (10 : ℚ) ^ frac.length)

/-- Python `float(s)` on plain decimal literals; `none` where `float`
raises `ValueError`. -/
def pyFloat (s : String) : Option ℚ :=
  match s.data with
  | '+' :: rest => pyFloatUnsigned rest
  | '-' :: rest => (pyFloatUnsigned rest).map (fun q => -q)
  | cs => pyFloatUnsigned cs

/-! ## Data model (`MessageData` and the classification record) -/

/-- One Slack reaction record; the source only ever takes the length of
the reaction list, but each record carries its own `count` field, which
§3 of the design document sums. -/
structure Reaction where
  name : String := ""
  count : Nat := 0
  deriving DecidableEq

/-- `MessageData` from the source: requester id, raw text, timestamp
string, optional thread-root timestamp, optional reaction list
(`reactions: List[Dict] = None`) and optional attachment list. -/
structure MessageData where
  user : String
  text : String
  timestamp : String
  thread_ts : Option String := none
  reactions : Option (List Reaction) := none
  attachments : Option (List String) := none
  deriving DecidableEq

/-- Python truthiness of an optional string (`None` and the empty string
are falsy). -/
def truthyStr : Option String → Bool
  | none => false
  | some s => !(s == "")

/-- Python truthiness of an optional list (`None` and `[]` are falsy). -/
def truthyList {α : Type} : Option (List α) → Bool
  | none => false
  | some l => !l.isEmpty

/-- `len(o)` for an optional list, with 0 for `None`. -/
def optLen {α : Type} : Option (List α) → Nat
  | none => 0
  | some l => l.length

/-- Python two-argument `min` on rationals: the second argument is
returned only when it is strictly smaller. -/
def pyMin (a b : ℚ) : ℚ := if b < a then b else a

/-- The dictionary `categorize_message` returns, as a record. -/
structure Classification where
  severity : String
  is_question : Bool
  workflow : String
  jira_tickets : List String
  has_thread : Bool
  reaction_count : Nat
  resolution_confidence : ℚ
  deriving DecidableEq

/-! ## Ticket reference extraction (`extract_jira_tickets`)

The pattern is `\b[A-Z]+-\d+\b`.  Because the character classes
`[A-Z]`, the dash and `\d` are pairwise disjoint, the regex engine's
greedy matching never backtracks usefully, and no match can start
strictly inside another, so a single left-to-right scan that tracks
whether the previous character was a word character is equivalent to
`re.findall`. -/

/-- Try the pattern `[A-Z]+-\d+\b` at the head of `cs` (the leading word
boundary is the caller's responsibility). -/
def jiraHere (cs : List Char) : Option (List Char) :=
  let us := cs.takeWhile isUpperCh
  if us.isEmpty then none
  else
    match cs.drop us.length with
    | '-' :: rest =>
      let ds := rest.takeWhile isDigitCh
      if ds.isEmpty then none
      else
        match rest.drop ds.length with
        | [] => some (us ++ '-' :: ds)
        | c :: _ => if isWordCh c then none else some (us ++ '-' :: ds)
    | _ => none

/-- Left-to-right scan for `\b[A-Z]+-\d+\b`; `prevW` records whether the
character before the current suffix is a word character. -/
def jiraScanAux : Bool → List Char → List String
  | _, [] => []
  | prevW, c :: rest =>
    let tail := jiraScanAux (isWordCh c) rest
    if prevW then tail
    else
      match jiraHere (c :: rest) with
      | some tok => String.mk tok :: tail
      | none => tail

/-- `re.findall(jiraPattern, text)`: every match, in first-seen order,
duplicates included. -/
def jiraMatches (text : String) : List String :=
  jiraScanAux false text.data

/-- First-seen-order deduplication. -/
def dedupSeen : List String → List String → List String
  | _, [] => []
  | seen, x :: xs =>
    if seen.contains x then dedupSeen seen xs
    else x :: dedupSeen (x :: seen) xs

/-- First-seen-order deduplication of a whole list. -/
def dedupFS (l : List String) : List String := dedupSeen [] l

/-- `extract_jira_tickets`: the source computes
`list(set(re.findall(...)))`.  A Python `set` of strings iterates in
hash-table order, which is randomised per process; only the MEMBERSHIP
of the result is determined by the source.  To stay executable the
embedding fixes first-seen order — that ordering choice is the model's,
not the source's. -/
def extract_jira_tickets (text : String) : List String :=
  dedupFS (jiraMatches text)

/-! ## The classifier (`categorize_message`) -/

/-- High-severity keywords (line 252 of the source). -/
def highKeywords : List String := ["urgent", "critical", "emergency", "asap", "blocking"]

/-- Low-severity keywords (line 254). -/
def lowKeywords : List String := ["low", "minor", "nice to have", "enhancement"]

/-- Question indicators (line 258). -/
def questionKeywords : List String :=
  ["?", "question", "how", "what", "why", "when", "where", "can you", "could you", "help"]

/-- Fallback keywords for the Nucleus workflow (line 282). -/
def nucleusKeywords : List String := ["nucleus", "nucleus dashboard"]

/-- Fallback keywords for the Trust View workflow (line 284). -/
def trustKeywords : List String := ["trust", "trust view", "trust dashboard"]

/-- Fallback keywords for the Search workflow (line 286). -/
def searchKeywords : List String := ["search", "search 3.0", "ingestion"]

/-- Fallback keywords for the Deployment workflow (line 288). -/
def deploymentKeywords : List String := ["deployment", "production", "staging"]

/-- The slice the source extracts after the (lower-cased) label
`request type:`: up to the next `*priority:*`, else the next
`*subrequest type:*`, else 50 characters; then
`.strip().replace(star, nothing).strip()`.  The input `t` is the
lower-cased text. -/
def requestTypeValue (t : List Char) : List Char :=
  let s := (findIdxL t ("request type:").data).getD 0 + ("request type:").length
  let e :=
    match findFromL t ("*priority:*").data s with
    | some i => i
    | none =>
      match findFromL t ("*subrequest type:*").data s with
      | some i => i
      | none => s + 50
  pyStripL (stripStars (pyStripL (pySliceL t s e)))

/-- Workflow determination of `categorize_message` (lines 260–289),
operating on the lower-cased text. -/
def workflowFromLowered (t : List Char) : String :=
  if strHasL t ("request type:").data then
    let rt := requestTypeValue t
    if strHasL rt ("nucleus").data then "Nucleus"
    else if strHasL rt ("trust view").data then "Trust View"
    else if strHasL rt ("trust dashboard").data then "Trust View"
    else "Other"
  else
    if anyKeywordIn nucleusKeywords t then "Nucleus"
    else if anyKeywordIn trustKeywords t then "Trust View"
    else if anyKeywordIn searchKeywords t then "Search"
    else if anyKeywordIn deploymentKeywords t then "Deployment"
    else "Other"

/-- `categorize_message` (lines 243–306).  Python float arithmetic is
idealised as exact rational arithmetic on the decimal constants 0.5,
0.3 and 0.1. -/
def categorize_message (m : MessageData) : Classification :=
  let t := pyLowerS m.text
  let jt := extract_jira_tickets m.text
  let severity : String :=
    if anyKeywordIn highKeywords t then "High"
    else if anyKeywordIn lowKeywords t then "Low"
    else "Medium"
  let isQ := anyKeywordIn questionKeywords t
  let wf := workflowFromLowered t
  let base : ℚ := 1 / 2
  let withThread : ℚ := if truthyStr m.thread_ts then base + 3 / 10 else base
  let withReactions : ℚ :=
    if truthyList m.reactions then withThread + (optLen m.reactions : ℚ) * (1 / 10)
    else withThread
  { severity := severity
    is_question := isQ
    workflow := wf
    jira_tickets := jt
    has_thread := m.thread_ts.isSome
    reaction_count := if truthyList m.reactions then optLen m.reactions else 0
    resolution_confidence := pyMin withReactions 1 }

/-! ## Field extraction helpers (`_extract_description`, `_extract_summary`,
`_extract_actual_user`) -/

/-- End position of a labelled field: the first terminator label found at
or after `s`, tried in order, else `s + window` — the chained
`find(...) == -1` fallbacks of the source. -/
def termEnd (cs : List Char) (terms : List String) (s window : Nat) : Nat :=
  match terms with
  | [] => s + window
  | t :: rest =>
    match findFromL cs t.data s with
    | some i => i
    | none => termEnd cs rest s window

/-- The slice between a label and its terminators,
`.strip().replace(star, nothing).strip()`-ed. -/
def labelledSlice (cs : List Char) (label : String) (terms : List String)
    (window : Nat) : List Char :=
  let s := (findIdxL cs label.data).getD 0 + label.length
  pyStripL (stripStars (pyStripL (pySliceL cs s (termEnd cs terms s window))))

/-- `_extract_summary` (lines 733–750): the `*Summary:*` field, or the
empty string when the label is missing or the trimmed slice is blank. -/
def _extract_summary (text : String) : String :=
  let cs := text.data
  if strHasL cs ("*Summary:*").data then
    let v := labelledSlice cs "*Summary:*"
      ["*Application Name:*", "*Alias or Service ID:*", "*Division:*"] 200
    if v.isEmpty then "" else String.mk v
  else ""

/-- `_extract_description` (lines 752–770): the `*Description:*` field,
falling back to `_extract_summary` when the label is missing or the
trimmed slice is blank. -/
def _extract_description (text : String) : String :=
  let cs := text.data
  if strHasL cs ("*Description:*").data then
    let v := labelledSlice cs "*Description:*"
      ["*Application Name:*", "*Alias or Service ID:*", "*Division:*"] 300
    if v.isEmpty then _extract_summary text else String.mk v
  else _extract_summary text

/-- One user-mention token at the head of `cs`: the regex
`<@([A-Z0-9]+)>`, returning the captured id. -/
def mentionHere (cs : List Char) : Option (List Char) :=
  match cs with
  | '<' :: '@' :: rest =>
    let ds := rest.takeWhile isUpperDigitCh
    if ds.isEmpty then none
    else
      match rest.drop ds.length with
      | '>' :: _ => some ds
      | _ => none
  | _ => none

/-- `re.findall` of the mention pattern: no mention can start strictly
inside another (the id characters contain no `<`), so the
position-by-position scan is equivalent. -/
def mentionScan : List Char → List String
  | [] => []
  | c :: rest =>
    match mentionHere (c :: rest) with
    | some ds => String.mk ds :: mentionScan rest
    | none => mentionScan rest

/-- The pattern `New request from <@([A-Z0-9]+)> via` at the head of
`cs`, returning the captured id. -/
def newRequestHere (cs : List Char) : Option (List Char) :=
  if matchHere ("New request from <@").data cs then
    let rest := cs.drop ("New request from <@").length
    let ds := rest.takeWhile isUpperDigitCh
    if ds.isEmpty then none
    else if matchHere ("> via").data (rest.drop ds.length) then some ds
    else none
  else none

/-- `re.search` of the new-request pattern: first match anywhere. -/
def newRequestSearch : List Char → Option (List Char)
  | [] => none
  | c :: rest =>
    match newRequestHere (c :: rest) with
    | some ds => some ds
    | none => newRequestSearch rest

/-- `_extract_actual_user` (lines 772–789): the requester mentioned by
"New request from … via", else the first mention anywhere, else the
empty string. -/
def _extract_actual_user (text : String) : String :=
  match newRequestSearch text.data with
  | some ds => String.mk ds
  | none =>
    match mentionScan text.data with
    | m :: _ => m
    | [] => ""

/-! ## Specification-side definitions

These re-state rules in the words of the design document, independently
of the embedded source, so that the claims comparing the two are
non-trivial. -/

/-- The severity rule as §4.2 of the design document words it: high
keywords first, then low keywords, else Medium. -/
def specSeverity (text : String) : String :=
  if anyKeywordIn highKeywords (pyLowerS text) then "High"
  else if anyKeywordIn lowKeywords (pyLowerS text) then "Low"
  else "Medium"

/-- The field-based workflow mapping as §4.2 words it: contains
"nucleus" → Nucleus; contains "trust view" or "trust dashboard" →
Trust View; else Other. -/
def specWorkflowFromField (rt : List Char) : String :=
  if strHasL rt ("nucleus").data then "Nucleus"
  else if strHasL rt ("trust view").data || strHasL rt ("trust dashboard").data then
    "Trust View"
  else "Other"

/-- The keyword-fallback workflow scan as §4.2 words it, in the fixed
priority order nucleus → trust → search → deployment → Other. -/
def specWorkflowFallback (t : List Char) : String :=
  if anyKeywordIn nucleusKeywords t then "Nucleus"
  else if anyKeywordIn trustKeywords t then "Trust View"
  else if anyKeywordIn searchKeywords t then "Search"
  else if anyKeywordIn deploymentKeywords t then "Deployment"
  else "Other"

/-- §3's `reaction_count`: the sum of the counts of all the message's
reaction records. -/
def sumReactionCounts (m : MessageData) : Nat :=
  match m.reactions with
  | none => 0
  | some l => (l.map Reaction.count).sum

/-- The resolution-confidence formula exactly as the claim words it,
with `reaction_count` the sum of the reaction records' counts. -/
def specConfidence (m : MessageData) : ℚ :=
  pyMin ((1 : ℚ) / 2 + (if m.thread_ts.isSome then (3 : ℚ) / 10 else 0)
    + (sumReactionCounts m : ℚ) * (1 / 10)) 1

/-- What the source actually uses in place of the reaction-count sum:
the number of reaction records (`len(message.reactions)`, 0 for a
missing list). -/
def numReactionRecords (m : MessageData) : Nat := optLen m.reactions

/-! ## Concrete messages used by witnesses and counterexamples -/

/-- A message with a single reaction record of count 2: the input on
which `len(reactions)` and the sum of the counts differ. -/
def cxReactMsg : MessageData :=
  { user := "U1", text := "all good", timestamp := "0",
    reactions := some [{ name := "eyes", count := 2 }] }

/-- An urgent nucleus message (Scenario 2 of the design document). -/
def exUrgentMsg : MessageData :=
  { user := "U1", text := "this is urgent, nucleus dashboard broken", timestamp := "1" }

/-- The same text as `exUrgentMsg` carried by a different message. -/
def exUrgentMsg2 : MessageData :=
  { user := "U2", text := "this is urgent, nucleus dashboard broken", timestamp := "7",
    thread_ts := some "1" }

/-! ## Report generation (`generate_final_digest_content`)

The computational skeleton of lines 308–375: the empty-input sentinel,
the timestamp keying (which is where `float(...)` can raise), the
stable sort, the grouping into daily buckets in first-seen key order,
and the descending iteration order over days.  Everything after that
point — statistics, `strftime` formatting, emoji markers, and the
per-message lines (including user-name resolution, modelled separately
by `get_user_info` below) — only reads this structure and is absorbed
into an opaque `render` parameter. -/

/-- The errors report generation can surface.  `valueError` models the
Python `ValueError` that `float(msg.timestamp)` raises, carrying the
offending literal; `formatError` models the `FormatError` that §7 of
the design document prescribes — the embedded code never constructs
it. -/
inductive PyErr where
  | valueError (literal : String)
  | formatError (field : String)
  deriving DecidableEq

/-- `messages.sort(key=lambda x: float(x.timestamp))` evaluates the key
of every message in input order before sorting; the first unparseable
timestamp raises. -/
def computeKeys : List MessageData → Except PyErr (List (ℚ × MessageData))
  | [] => .ok []
  | m :: rest =>
    match pyFloat m.timestamp with
    | none => .error (.valueError m.timestamp)
    | some q =>
      match computeKeys rest with
      | .error e => .error e
      | .ok ks => .ok ((q, m) :: ks)

/-- Comparison used by the message sort: strictly smaller timestamp
key. -/
def ltTs (a b : ℚ × MessageData) : Bool := decide (a.1 < b.1)

/-- Comparison used by `sorted(keys, reverse=True)` over day keys. -/
def ltDayDesc (a b : Int) : Bool := decide (b < a)

/-- Insert `x` before the first element not strictly `lt`-below it; an
element equal to `x` therefore ends up after `x`, which gives the
stability of Python's sort when the insertion order is right. -/
def insPlace {α : Type} (lt : α → α → Bool) (x : α) : List α → List α
  | [] => [x]
  | y :: ys => if lt y x then y :: insPlace lt x ys else x :: y :: ys

/-- Stable insertion sort: the head of the input (its earliest element)
is inserted last, so it lands before any later element with an equal
key. -/
def insSort {α : Type} (lt : α → α → Bool) : List α → List α
  | [] => []
  | x :: xs => insPlace lt x (insSort lt xs)

/-- Calendar-day key of a timestamp,
`datetime.fromtimestamp(ts).strftime(dateFormat)` idealised to a
fixed-offset clock: the day number `⌊ts / 86400⌋`.  Only its
monotonicity in the timestamp matters to the ordering claims. -/
def dayKeyQ (q : ℚ) : Int := (q / 86400).floor

/-- One step of the `daily_messages[day_key].append(...)` loop on the
insertion-ordered bucket association list. -/
def addToBuckets :
    List (Int × List (ℚ × MessageData)) → Int → ℚ × MessageData →
      List (Int × List (ℚ × MessageData))
  | [], d, p => [(d, [p])]
  | (k, ms) :: rest, d, p =>
    if k = d then (k, ms ++ [p]) :: rest
    else (k, ms) :: addToBuckets rest d p

/-- The bucket dictionary after the grouping loop, keys in first-seen
order. -/
def buildBuckets (l : List (ℚ × MessageData)) : List (Int × List (ℚ × MessageData)) :=
  l.foldl (fun acc p => addToBuckets acc (dayKeyQ p.1) p) []

/-- `daily_messages[d]` (with the defaultdict's empty default). -/
def bucketLookup : List (Int × List (ℚ × MessageData)) → Int → List (ℚ × MessageData)
  | [], _ => []
  | (k, ms) :: rest, d => if k = d then ms else bucketLookup rest d

/-- The computed structure the rendering loop of lines 349–476 reads:
the globally sorted message sequence, the daily buckets, and
`sorted(daily_messages.keys(), reverse=True)` — the order in which the
day sections are emitted. -/
structure PipelineOut where
  sortedMsgs : List (ℚ × MessageData)
  buckets : List (Int × List (ℚ × MessageData))
  dayOrder : List Int

/-- The structure computed from successfully keyed messages. -/
def pipelineOk (keyed : List (ℚ × MessageData)) : PipelineOut :=
  { sortedMsgs := insSort ltTs keyed
    buckets := buildBuckets (insSort ltTs keyed)
    dayOrder := insSort ltDayDesc ((buildBuckets (insSort ltTs keyed)).map Prod.fst) }

/-- Sort, group and order the days (lines 313–327 and 369). -/
def pipelineCore (messages : List MessageData) : Except PyErr PipelineOut :=
  match computeKeys messages with
  | .error e => .error e
  | .ok keyed => .ok (pipelineOk keyed)

/-- The fixed sentinel document for an empty message list (line 311). -/
def noMessagesSentinel : String := "📭 No new messages to include in this weekly digest."

/-- `generate_final_digest_content` (lines 308–476): the empty-input
sentinel, then the computational pipeline, then the rendering —
everything the ordering and error claims do not touch is the injected
`render` function of the computed structure. -/
def generate_final_digest_content (render : String → Nat → PipelineOut → String)
    (channelName : String) (messages : List MessageData) (daysBack : Nat) :
    Except PyErr String :=
  if messages.isEmpty then .ok noMessagesSentinel
  else
    match pipelineCore messages with
    | .error e => .error e
    | .ok out => .ok (render channelName daysBack out)

/-- Does a result carry the `FormatError` of §7? -/
def raisedFormatError : Except PyErr String → Bool
  | .error (.formatError _) => true
  | _ => false

/-- Does a result carry a `ValueError` whose literal is itself
unparseable — i.e. did the run fail fast on a malformed timestamp? -/
def errIsUnparseableValue : Except PyErr String → Bool
  | .error (.valueError s) => (pyFloat s).isNone
  | _ => false

/-! ## User-name resolution (`get_user_info`, lines 65–78) -/

/-- The mutable state `get_user_info` touches: the process-wide
`users_cache` dictionary (an insertion-ordered association list) and,
for the claims about call counts, the log of user ids actually sent to
the Slack API. -/
structure SlackState where
  users_cache : List (String × String)
  calls : List String

/-- Dictionary lookup in the cache. -/
def cacheLookup : List (String × String) → String → Option String
  | [], _ => none
  | (k, v) :: rest, u => if k = u then some v else cacheLookup rest u

/-- `get_user_info`: return the cached name if present; otherwise call
the API (`resp`, whose answer may differ from call to call — `none`
models `SlackApiError`), cache what came back (the resolved name, or
the `Unknown User` sentinel on failure) and return it. -/
def get_user_info (resp : String → Option String) (st : SlackState) (uid : String) :
    String × SlackState :=
  match cacheLookup st.users_cache uid with
  | some name => (name, st)
  | none =>
    match resp uid with
    | some name =>
      (name, { users_cache := st.users_cache ++ [(uid, name)], calls := st.calls ++ [uid] })
    | none =>
      ("Unknown User",
        { users_cache := st.users_cache ++ [(uid, "Unknown User")],
          calls := st.calls ++ [uid] })

/-- A sequence of `get_user_info` requests, each with the API behaviour
in force at that moment; returns the (uid, result) pairs in order and
the final state. -/
def runLookups :
    List (String × (String → Option String)) → SlackState →
      List (String × String) × SlackState
  | [], st => ([], st)
  | (u, resp) :: rest, st =>
    let r := get_user_info resp st u
    let t := runLookups rest r.2
    ((u, r.1) :: t.1, t.2)

/-- The results returned for requests about `u`, in request order. -/
def resultsFor (reqs : List (String × (String → Option String))) (u : String) :
    List String :=
  (((runLookups reqs { users_cache := [], calls := [] }).1).filter
    (fun p => p.1 == u)).map Prod.snd

/-! ## Helper lemmas: the insertion sort -/

/-- Inserting permutes: the result holds the new element and the old
ones. -/
theorem insPlace_perm {α : Type} (lt : α → α → Bool) (x : α) (l : List α) :
    List.Perm (insPlace lt x l) (x :: l) := by
  induction l with
  | nil => exact List.Perm.refl _
  | cons y ys ih =>
    unfold insPlace
    split
    · exact (ih.cons y).trans (List.Perm.swap x y ys)
    · exact List.Perm.refl _

/-- Sorting permutes. -/
theorem insSort_perm {α : Type} (lt : α → α → Bool) (l : List α) :
    List.Perm (insSort lt l) l := by
  induction l with
  | nil => exact List.Perm.refl _
  | cons x xs ih => exact (insPlace_perm lt x (insSort lt xs)).trans (ih.cons x)

/-- Insertion preserves sortedness, for any comparison that is
asymmetric and whose negation is transitive. -/
theorem insPlace_pairwise {α : Type} (lt : α → α → Bool)
    (hasym : ∀ a b, lt a b = true → lt b a = false)
    (hneg : ∀ a b c, lt b a = false → lt c b = false → lt c a = false)
    (x : α) (l : List α) (hl : l.Pairwise (fun a b => lt b a = false)) :
    (insPlace lt x l).Pairwise (fun a b => lt b a = false) := by
  induction l with
  | nil => simp [insPlace]
  | cons y ys ih =>
    rw [List.pairwise_cons] at hl
    obtain ⟨hy, hys⟩ := hl
    unfold insPlace
    cases hlt : lt y x
    · rw [if_neg Bool.false_ne_true]
      rw [List.pairwise_cons]
      refine ⟨?_, List.pairwise_cons.mpr ⟨hy, hys⟩⟩
      intro z hz
      rcases List.mem_cons.mp hz with rfl | hz2
      · exact hlt
      · exact hneg x y z hlt (hy z hz2)
    · rw [if_pos rfl]
      rw [List.pairwise_cons]
      refine ⟨?_, ih hys⟩
      intro z hz
      rcases List.mem_cons.mp ((insPlace_perm lt x ys).mem_iff.mp hz) with rfl | hz2
      · exact hasym y z hlt
      · exact hy z hz2

/-- The insertion sort sorts. -/
theorem insSort_pairwise {α : Type} (lt : α → α → Bool)
    (hasym : ∀ a b, lt a b = true → lt b a = false)
    (hneg : ∀ a b c, lt b a = false → lt c b = false → lt c a = false)
    (l : List α) :
    (insSort lt l).Pairwise (fun a b => lt b a = false) := by
  induction l with
  | nil => simp [insSort]
  | cons x xs ih => exact insPlace_pairwise lt hasym hneg x _ ih

/-- Every element strictly below `x` fails `p`: then filtering after an
insertion puts `x` first. -/
theorem filter_insPlace_pos {α : Type} (lt : α → α → Bool) (p : α → Bool) (x : α)
    (hx : p x = true) (hbefore : ∀ y, lt y x = true → p y = false) (l : List α) :
    (insPlace lt x l).filter p = x :: l.filter p := by
  induction l with
  | nil => simp [insPlace, hx]
  | cons y ys ih =>
    unfold insPlace
    cases hlt : lt y x
    · rw [if_neg Bool.false_ne_true]
      simp [List.filter_cons, hx]
    · rw [if_pos rfl]
      simp [List.filter_cons, hbefore y hlt, ih]

/-- Filtering ignores an inserted element that fails `p`. -/
theorem filter_insPlace_neg {α : Type} (lt : α → α → Bool) (p : α → Bool) (x : α)
    (hx : p x = false) (l : List α) :
    (insPlace lt x l).filter p = l.filter p := by
  induction l with
  | nil => simp [insPlace, hx]
  | cons y ys ih =>
    unfold insPlace
    cases hlt : lt y x
    · rw [if_neg Bool.false_ne_true]
      simp [List.filter_cons, hx]
    · rw [if_pos rfl]
      simp [List.filter_cons, ih]

/-- Stability: when `p` only holds on one comparison class (anything
strictly below a `p`-element fails `p`), the sort leaves the
`p`-subsequence exactly as the input had it. -/
theorem filter_insSort {α : Type} (lt : α → α → Bool) (p : α → Bool)
    (hpo : ∀ x y, p x = true → lt y x = true → p y = false) (l : List α) :
    (insSort lt l).filter p = l.filter p := by
  induction l with
  | nil => rfl
  | cons x xs ih =>
    unfold insSort
    cases hx : p x
    · rw [filter_insPlace_neg lt p x hx, ih]
      simp [List.filter_cons, hx]
    · rw [filter_insPlace_pos lt p x hx (fun y hy => hpo x y hx hy), ih]
      simp [List.filter_cons, hx]

/-! ## Helper lemmas: the daily buckets -/

/-- Appending to a bucket extends exactly that bucket. -/
theorem bucketLookup_add_same (b : List (Int × List (ℚ × MessageData))) (d : Int)
    (p : ℚ × MessageData) :
    bucketLookup (addToBuckets b d p) d = bucketLookup b d ++ [p] := by
  induction b with
  | nil => simp [addToBuckets, bucketLookup]
  | cons kv rest ih =>
    obtain ⟨k, ms⟩ := kv
    by_cases hk : k = d
    · simp [addToBuckets, bucketLookup, hk]
    · simp [addToBuckets, bucketLookup, hk, ih]

/-- Appending to one bucket leaves the others unchanged. -/
theorem bucketLookup_add_other (b : List (Int × List (ℚ × MessageData))) (d d2 : Int)
    (p : ℚ × MessageData) (h : d2 ≠ d) :
    bucketLookup (addToBuckets b d p) d2 = bucketLookup b d2 := by
  have h2 : ¬ d = d2 := fun e => h e.symm
  induction b with
  | nil => simp [addToBuckets, bucketLookup, h2]
  | cons kv rest ih =>
    obtain ⟨k, ms⟩ := kv
    by_cases hk : k = d
    · subst hk
      simp [addToBuckets, bucketLookup, h2, ih]
    · by_cases hk2 : k = d2
      · subst hk2
        simp [addToBuckets, bucketLookup, hk]
      · simp [addToBuckets, bucketLookup, hk, hk2, ih]

/-- The grouping loop sends each day key to the subsequence of pairs
with that day, in traversal order. -/
theorem buildBuckets_lookup_aux (l : List (ℚ × MessageData)) :
    ∀ (b : List (Int × List (ℚ × MessageData))) (d : Int),
      bucketLookup (l.foldl (fun acc p => addToBuckets acc (dayKeyQ p.1) p) b) d =
        bucketLookup b d ++ l.filter (fun p => decide (dayKeyQ p.1 = d)) := by
  induction l with
  | nil => intro b d; simp
  | cons p ps ih =>
    intro b d
    rw [List.foldl_cons, ih]
    by_cases hd : dayKeyQ p.1 = d
    · subst hd
      rw [bucketLookup_add_same]
      simp [List.filter_cons, List.append_assoc]
    · rw [bucketLookup_add_other _ _ _ _ (fun e => hd e.symm)]
      simp [List.filter_cons, hd]

/-- The bucket of day `d` is the filter of the traversed list. -/
theorem buildBuckets_lookup (l : List (ℚ × MessageData)) (d : Int) :
    bucketLookup (buildBuckets l) d = l.filter (fun p => decide (dayKeyQ p.1 = d)) := by
  have h := buildBuckets_lookup_aux l [] d
  simpa [buildBuckets, bucketLookup] using h

/-- A key of the extended bucket list is an old key or the day just
added. -/
theorem mem_keys_addToBuckets {x : Int} (b : List (Int × List (ℚ × MessageData)))
    (d : Int) (p : ℚ × MessageData)
    (h : x ∈ (addToBuckets b d p).map Prod.fst) : x ∈ b.map Prod.fst ∨ x = d := by
  induction b with
  | nil =>
    simp [addToBuckets] at h
    exact Or.inr h
  | cons kv rest ih =>
    obtain ⟨k, ms⟩ := kv
    by_cases hk : k = d
    · subst hk
      have he : addToBuckets ((k, ms) :: rest) k p = (k, ms ++ [p]) :: rest := by
        unfold addToBuckets
        rw [if_pos rfl]
      rw [he] at h
      simp only [List.map_cons, List.mem_cons] at h ⊢
      tauto
    · simp only [addToBuckets, if_neg hk, List.map_cons, List.mem_cons] at h
      rcases h with rfl | h2
      · exact Or.inl (List.mem_cons_self _ _)
      · rcases ih h2 with h3 | h4
        · exact Or.inl (List.mem_cons_of_mem _ h3)
        · exact Or.inr h4

/-- The grouping loop never duplicates a day key. -/
theorem keys_nodup_addToBuckets (b : List (Int × List (ℚ × MessageData))) (d : Int)
    (p : ℚ × MessageData) (h : (b.map Prod.fst).Nodup) :
    ((addToBuckets b d p).map Prod.fst).Nodup := by
  induction b with
  | nil => simp [addToBuckets]
  | cons kv rest ih =>
    obtain ⟨k, ms⟩ := kv
    rw [List.map_cons, List.nodup_cons] at h
    obtain ⟨hk1, hk2⟩ := h
    by_cases hk : k = d
    · subst hk
      have he : addToBuckets ((k, ms) :: rest) k p = (k, ms ++ [p]) :: rest := by
        unfold addToBuckets
        rw [if_pos rfl]
      rw [he, List.map_cons, List.nodup_cons]
      exact ⟨hk1, hk2⟩
    · simp only [addToBuckets, if_neg hk, List.map_cons, List.nodup_cons]
      refine ⟨?_, ih hk2⟩
      intro hmem
      rcases mem_keys_addToBuckets rest d p hmem with h3 | h4
      · exact hk1 h3
      · exact hk h4

/-- The bucket dictionary's key list has no duplicates. -/
theorem buildBuckets_keys_nodup (l : List (ℚ × MessageData)) :
    ((buildBuckets l).map Prod.fst).Nodup := by
  suffices h : ∀ b : List (Int × List (ℚ × MessageData)), (b.map Prod.fst).Nodup →
      ((l.foldl (fun acc p => addToBuckets acc (dayKeyQ p.1) p) b).map Prod.fst).Nodup by
    exact h [] (by simp)
  induction l with
  | nil => intro b hb; simpa using hb
  | cons p ps ih =>
    intro b hb
    rw [List.foldl_cons]
    exact ih _ (keys_nodup_addToBuckets b _ p hb)

/-! ## Helper lemmas: timestamp keying -/

/-- Second components of the keyed list are the input messages. -/
theorem computeKeys_map_snd (messages : List MessageData) :
    ∀ keyed, computeKeys messages = .ok keyed → keyed.map Prod.snd = messages := by
  induction messages with
  | nil =>
    intro keyed h
    unfold computeKeys at h
    injection h with h2
    rw [← h2]
    rfl
  | cons m rest ih =>
    intro keyed h
    unfold computeKeys at h
    cases hq : pyFloat m.timestamp with
    | none => rw [hq] at h; cases h
    | some q =>
      rw [hq] at h
      cases hr : computeKeys rest with
      | error e => rw [hr] at h; cases h
      | ok ks =>
        rw [hr] at h
        injection h with h2
        rw [← h2, List.map_cons, ih ks hr]

/-- A member with an unparseable timestamp makes keying fail with a
`ValueError` carrying an unparseable literal. -/
theorem computeKeys_error_of_bad (messages : List MessageData) :
    ∀ m : MessageData, m ∈ messages → pyFloat m.timestamp = none →
      ∃ s, computeKeys messages = .error (.valueError s) ∧ pyFloat s = none := by
  induction messages with
  | nil => intro m hm; cases hm
  | cons m0 rest ih =>
    intro m hm hbad
    unfold computeKeys
    cases hq : pyFloat m0.timestamp with
    | none => exact ⟨m0.timestamp, rfl, hq⟩
    | some q =>
      have hm2 : m ∈ rest := by
        rcases List.mem_cons.mp hm with rfl | h2
        · rw [hq] at hbad; cases hbad
        · exact h2
      obtain ⟨s, hs, hbs⟩ := ih m hm2 hbad
      refine ⟨s, ?_, hbs⟩
      rw [hs]

/-- Inversion of a successful pipeline run. -/
theorem pipelineCore_ok (messages : List MessageData) (keyed : List (ℚ × MessageData))
    (hk : computeKeys messages = .ok keyed) :
    pipelineCore messages = .ok (pipelineOk keyed) := by
  unfold pipelineCore
  rw [hk]

/-! ## Helper lemmas: the classifier -/

/-- `pyMin a 1` stays inside `[0, 1]` whenever `a` is non-negative. -/
theorem pyMin_unit_aux (a : ℚ) (h : 0 ≤ a) : 0 ≤ pyMin a 1 ∧ pyMin a 1 ≤ 1 := by
  unfold pyMin
  split
  · exact ⟨by linarith, by linarith⟩
  · rename_i hlt
    rw [not_lt] at hlt
    exact ⟨h, hlt⟩

/-- The severity the classifier stores is the spec-worded rule, for any
message. -/
theorem severity_eq_specSeverity (m : MessageData) :
    (categorize_message m).severity = specSeverity m.text := rfl

/-! ## Claim theorems -/

/-- C1, counterexample: on a message carrying one reaction record of
count 2, the classifier's `reaction_count` is 1 (the number of records),
not 2 (the sum of the counts), and its `resolution_confidence` is 0.6,
not the 0.7 the claim's formula `min(1, 0.5 + 0.1 x sum)` yields. -/
theorem reaction_count_len_vs_sum_cx :
    (categorize_message cxReactMsg).reaction_count = 1 ∧
      sumReactionCounts cxReactMsg = 2 ∧
      (categorize_message cxReactMsg).resolution_confidence = 3 / 5 ∧
      specConfidence cxReactMsg = 7 / 10 ∧
      (categorize_message cxReactMsg).reaction_count ≠ sumReactionCounts cxReactMsg ∧
      (categorize_message cxReactMsg).resolution_confidence ≠ specConfidence cxReactMsg := by
  refine ⟨rfl, rfl, ?_, ?_, by decide, ?_⟩
  · norm_num [categorize_message, cxReactMsg, truthyList, truthyStr, optLen, pyMin]
  · norm_num [specConfidence, sumReactionCounts, cxReactMsg, pyMin]
  · norm_num [categorize_message, specConfidence, sumReactionCounts, cxReactMsg,
      truthyList, truthyStr, optLen, pyMin]

/-- C1, amended: `resolution_confidence = min(1, 0.5 + (0.3 if the
thread-root timestamp is present and non-empty) + 0.1 x r)` where `r` is
the NUMBER of reaction records, and the stored `reaction_count` equals
that number. -/
theorem resolution_confidence_amended (m : MessageData) :
    (categorize_message m).reaction_count = numReactionRecords m ∧
      (categorize_message m).resolution_confidence =
        pyMin ((1 : ℚ) / 2 + (if truthyStr m.thread_ts then (3 : ℚ) / 10 else 0)
          + (numReactionRecords m : ℚ) * (1 / 10)) 1 := by
  have hrc : (categorize_message m).reaction_count =
      if truthyList m.reactions then optLen m.reactions else 0 := rfl
  have hcf : (categorize_message m).resolution_confidence =
      pyMin ((if truthyList m.reactions then
          (if truthyStr m.thread_ts then (1 : ℚ) / 2 + 3 / 10 else 1 / 2)
            + (optLen m.reactions : ℚ) * (1 / 10)
        else (if truthyStr m.thread_ts then (1 : ℚ) / 2 + 3 / 10 else 1 / 2))) 1 := rfl
  unfold numReactionRecords
  constructor
  · rw [hrc]
    rcases hm : m.reactions with _ | l
    · rfl
    · rcases l with _ | ⟨r, rs⟩ <;> simp [truthyList, optLen]
  · rw [hcf]
    congr 1
    rcases ht : truthyStr m.thread_ts <;>
      rcases hm : m.reactions with _ | (_ | ⟨r, rs⟩) <;>
        simp [truthyList, optLen, ht]

/-- C2 (evaluation at the failing input): the regex scan finds two
distinct tickets in "AAA-1 BBB-2" — so `list(set(...))` has more than
one element and its order is Python hash-table order — and Scenario 5's
single-ticket text deduplicates to exactly ["PROJ-123"] whatever that
order is. -/
theorem jira_ticket_collection_eval :
    jiraMatches "AAA-1 BBB-2" = ["AAA-1", "BBB-2"] ∧
      (dedupFS (jiraMatches "AAA-1 BBB-2")).length = 2 ∧
      extract_jira_tickets "PROJ-123 and proj-45 and PROJ-123" = ["PROJ-123"] := by
  decide

/-- C4, counterexample: on text with no labelled field and no mention,
`_extract_description` and `_extract_actual_user` return the EMPTY
STRING — not the `None` the claim requires, so absence is not
distinguishable from "found but blank" by the return value's shape. -/
theorem extraction_absence_empty_string_cx :
    _extract_description "hello" = "" ∧ _extract_actual_user "hello" = "" := by
  decide

/-- C4, amended: the extractors signal absence with the empty string,
never `None` (their type is plain `str`), and a slice that is blank
after trimming is treated exactly as an absent label: whenever the
Description field is absent OR its trimmed slice is blank, the
description extractor falls back to the Summary field just as if the
label were missing; when the Summary field is likewise absent or blank
both extractors return the empty string, and with no mention the
requester extractor does too. -/
theorem extraction_absence_empty_string (text : String)
    (h1 : strHasL text.data ("*Description:*").data = false ∨
      (labelledSlice text.data "*Description:*"
        ["*Application Name:*", "*Alias or Service ID:*", "*Division:*"] 300).isEmpty =
        true)
    (h2 : strHasL text.data ("*Summary:*").data = false ∨
      (labelledSlice text.data "*Summary:*"
        ["*Application Name:*", "*Alias or Service ID:*", "*Division:*"] 200).isEmpty =
        true)
    (h3 : newRequestSearch text.data = none)
    (h4 : mentionScan text.data = []) :
    _extract_description text = _extract_summary text ∧
      _extract_summary text = "" ∧
      _extract_description text = "" ∧
      _extract_actual_user text = "" := by
  have hs : _extract_summary text = "" := by
    rcases h2 with h2a | h2b
    · unfold _extract_summary
      simp [h2a]
    · cases hl : strHasL text.data ("*Summary:*").data
      · unfold _extract_summary
        simp [hl]
      · unfold _extract_summary
        simp [hl, h2b]
  have hds : _extract_description text = _extract_summary text := by
    rcases h1 with h1a | h1b
    · unfold _extract_description
      simp [h1a]
    · cases hl : strHasL text.data ("*Description:*").data
      · unfold _extract_description
        simp [hl]
      · unfold _extract_description
        simp [hl, h1b]
  refine ⟨hds, hs, hds.trans hs, ?_⟩
  unfold _extract_actual_user
  rw [h3, h4]

/-- A text in which both labels are PRESENT but both slices trim to
blank (only asterisks and whitespace before the next terminator), and
no mention occurs: the blank-after-trim case of the amended claim. -/
def blankFieldsText : String :=
  "*Description:* ** *Application Name:* *Summary:* ** *Division:*"

/-- C4, witness for the amended claim at a text whose labelled fields
are found but blank after trimming. -/
theorem extraction_absence_empty_string_witness :
    _extract_description blankFieldsText = _extract_summary blankFieldsText ∧
      _extract_summary blankFieldsText = "" ∧
      _extract_description blankFieldsText = "" ∧
      _extract_actual_user blankFieldsText = "" :=
  extraction_absence_empty_string blankFieldsText (Or.inr (by decide))
    (Or.inr (by decide)) (by decide) (by decide)

/-- C5: severity equals the spec-worded rule (high keywords take
precedence, else low keywords, else Medium), is always one of High,
Medium, Low, and is a pure function of the text: any message with the
same text is classified with the same severity. -/
theorem severity_rule_pure (m m2 : MessageData) (h : m2.text = m.text) :
    (categorize_message m).severity = specSeverity m.text ∧
      (categorize_message m).severity ∈ (["High", "Medium", "Low"] : List String) ∧
      (categorize_message m2).severity = (categorize_message m).severity := by
  refine ⟨severity_eq_specSeverity m, ?_, ?_⟩
  · rw [severity_eq_specSeverity m]
    unfold specSeverity
    split
    · simp
    · split <;> simp
  · rw [severity_eq_specSeverity m, severity_eq_specSeverity m2, h]

/-- C5, witness: Scenario 2's urgent text is High for two distinct
messages sharing it. -/
theorem severity_rule_pure_witness :
    (categorize_message exUrgentMsg).severity = specSeverity exUrgentMsg.text ∧
      (categorize_message exUrgentMsg).severity ∈ (["High", "Medium", "Low"] : List String) ∧
      (categorize_message exUrgentMsg2).severity = (categorize_message exUrgentMsg).severity :=
  severity_rule_pure exUrgentMsg exUrgentMsg2 rfl

/-- C6: when the lower-cased text carries a `request type:` label the
workflow is the field-based mapping of the extracted, trimmed field
value and the keyword fallback never runs; otherwise it is the keyword
fallback in the fixed priority order. -/
theorem workflow_field_short_circuit (m : MessageData) :
    (categorize_message m).workflow =
      if strHasL (pyLowerS m.text) ("request type:").data then
        specWorkflowFromField (requestTypeValue (pyLowerS m.text))
      else specWorkflowFallback (pyLowerS m.text) := by
  have hw : (categorize_message m).workflow = workflowFromLowered (pyLowerS m.text) := rfl
  rw [hw]
  unfold workflowFromLowered specWorkflowFromField specWorkflowFallback
  cases hrt : strHasL (pyLowerS m.text) ("request type:").data
  · simp
  · simp only [if_true]
    cases h1 : strHasL (requestTypeValue (pyLowerS m.text)) ("nucleus").data
    · cases h2 : strHasL (requestTypeValue (pyLowerS m.text)) ("trust view").data <;>
        cases h3 : strHasL (requestTypeValue (pyLowerS m.text)) ("trust dashboard").data <;>
          simp [h1, h2, h3]
    · simp [h1]

/-- C8: the stored resolution confidence always lies in `[0, 1]`. -/
theorem resolution_confidence_unit_interval (m : MessageData) :
    0 ≤ (categorize_message m).resolution_confidence ∧
      (categorize_message m).resolution_confidence ≤ 1 := by
  have hcf : (categorize_message m).resolution_confidence =
      pyMin ((if truthyList m.reactions then
          (if truthyStr m.thread_ts then (1 : ℚ) / 2 + 3 / 10 else 1 / 2)
            + (optLen m.reactions : ℚ) * (1 / 10)
        else (if truthyStr m.thread_ts then (1 : ℚ) / 2 + 3 / 10 else 1 / 2))) 1 := rfl
  rw [hcf]
  apply pyMin_unit_aux
  have hc : (0 : ℚ) ≤ (optLen m.reactions : ℚ) := Nat.cast_nonneg _
  have hm : (0 : ℚ) ≤ (optLen m.reactions : ℚ) * (1 / 10) := by
    apply mul_nonneg hc
    norm_num
  split <;> split <;> linarith

/-! ## Concrete pipeline inputs for counterexamples and witnesses -/

/-- A message whose timestamp `float(...)` cannot parse. -/
def cxBadTsMsg : MessageData :=
  { user := "U1", text := "hello world", timestamp := "not-a-number" }

/-- A concrete rendering function (the ordering and error claims hold
for every renderer; the closed statements need one). -/
def nullRender : String → Nat → PipelineOut → String := fun _ _ _ => ""

/-- Witness messages: one on day 1, two on day 0 sharing a timestamp. -/
def wMsgA : MessageData := { user := "UA", text := "a", timestamp := "90000" }

/-- Second witness message (see `wMsgA`). -/
def wMsgB : MessageData := { user := "UB", text := "b", timestamp := "50" }

/-- Third witness message, tied with `wMsgB` on the timestamp. -/
def wMsgC : MessageData := { user := "UC", text := "c", timestamp := "50" }

/-- The witness input sequence. -/
def wMsgs : List MessageData := [wMsgA, wMsgB, wMsgC]

/-- Its keyed form. -/
def wKeyed : List (ℚ × MessageData) :=
  match computeKeys wMsgs with
  | .ok l => l
  | .error _ => []

/-- Its pipeline output. -/
def wOut : PipelineOut :=
  match pipelineCore wMsgs with
  | .ok o => o
  | .error _ => { sortedMsgs := [], buckets := [], dayOrder := [] }

/-- C3, counterexample: on the unparseable timestamp the run surfaces
the `ValueError` of `float(...)` carrying the literal — not a
`FormatError` naming the offending field, which the code never
raises. -/
theorem malformed_timestamp_no_formaterror_cx :
    generate_final_digest_content nullRender "chan" [cxBadTsMsg] 7 =
      .error (.valueError "not-a-number") ∧
      raisedFormatError
        (generate_final_digest_content nullRender "chan" [cxBadTsMsg] 7) = false := by
  exact ⟨rfl, rfl⟩

/-- C3, amended: a message whose timestamp does not parse makes report
generation fail fast — the run returns the untyped `ValueError` of the
`float` conversion, carrying the unparseable literal, rather than
silently dropping the message; no field-naming `FormatError` exists in
the code. -/
theorem malformed_timestamp_fails_fast
    (render : String → Nat → PipelineOut → String) (channelName : String)
    (messages : List MessageData) (daysBack : Nat) (m : MessageData)
    (hm : m ∈ messages) (hbad : pyFloat m.timestamp = none) :
    errIsUnparseableValue
      (generate_final_digest_content render channelName messages daysBack) = true := by
  obtain ⟨s, hs, hbs⟩ := computeKeys_error_of_bad messages m hm hbad
  unfold generate_final_digest_content
  rw [if_neg (by simp [List.isEmpty_eq_false.mpr (List.ne_nil_of_mem hm)])]
  unfold pipelineCore
  rw [hs]
  simp [errIsUnparseableValue, hbs]

/-- C3, witness: the amended claim at the concrete bad message. -/
theorem malformed_timestamp_fails_fast_witness :
    errIsUnparseableValue
      (generate_final_digest_content nullRender "general" [cxBadTsMsg] 7) = true :=
  malformed_timestamp_fails_fast nullRender "general" [cxBadTsMsg] 7 cxBadTsMsg
    (List.mem_singleton.mpr rfl) rfl

/-- C7: for any successfully keyed input, the rendered day keys are
strictly descending, every daily bucket is ascending in the timestamp
key, and for each timestamp value the bucket holding it lists exactly
the input's messages with that timestamp in input order (stable
ties). -/
theorem digest_ordering_guarantees (messages : List MessageData)
    (keyed : List (ℚ × MessageData)) (out : PipelineOut)
    (hk : computeKeys messages = .ok keyed) (hp : pipelineCore messages = .ok out) :
    keyed.map Prod.snd = messages ∧
      out.dayOrder.Pairwise (fun a b => b < a) ∧
      (∀ d : Int, (bucketLookup out.buckets d).Pairwise (fun a b => a.1 ≤ b.1)) ∧
      (∀ q : ℚ,
        (bucketLookup out.buckets (dayKeyQ q)).filter (fun p => decide (p.1 = q)) =
          keyed.filter (fun p => decide (p.1 = q))) := by
  rw [pipelineCore_ok messages keyed hk] at hp
  injection hp with h2
  subst h2
  have hasymT : ∀ a b : ℚ × MessageData, ltTs a b = true → ltTs b a = false := by
    intro a b h
    simp only [ltTs, decide_eq_true_eq] at h
    simpa [ltTs] using le_of_lt h
  have hnegT : ∀ a b c : ℚ × MessageData,
      ltTs b a = false → ltTs c b = false → ltTs c a = false := by
    intro a b c h1 h2
    simp only [ltTs, decide_eq_false_iff_not, not_lt] at h1 h2 ⊢
    exact h1.trans h2
  have hasymD : ∀ a b : Int, ltDayDesc a b = true → ltDayDesc b a = false := by
    intro a b h
    simp only [ltDayDesc, decide_eq_true_eq] at h
    simpa [ltDayDesc] using le_of_lt h
  have hnegD : ∀ a b c : Int,
      ltDayDesc b a = false → ltDayDesc c b = false → ltDayDesc c a = false := by
    intro a b c h1 h2
    simp only [ltDayDesc, decide_eq_false_iff_not, not_lt] at h1 h2 ⊢
    exact h2.trans h1
  refine ⟨computeKeys_map_snd messages keyed hk, ?_, ?_, ?_⟩
  · -- strictly descending days
    have hsd := insSort_pairwise ltDayDesc hasymD hnegD
      ((buildBuckets (insSort ltTs keyed)).map Prod.fst)
    have hnd : (insSort ltDayDesc
        ((buildBuckets (insSort ltTs keyed)).map Prod.fst)).Nodup :=
      (insSort_perm ltDayDesc _).symm.nodup (buildBuckets_keys_nodup _)
    have hcomb := List.Pairwise.and hsd hnd
    refine hcomb.imp ?_
    intro a b hab
    obtain ⟨h1, h2⟩ := hab
    simp only [ltDayDesc, decide_eq_false_iff_not, not_lt] at h1
    exact lt_of_le_of_ne h1 (Ne.symm h2)
  · -- each bucket ascending
    intro d
    have hsorted := insSort_pairwise ltTs hasymT hnegT keyed
    have hmono : (insSort ltTs keyed).Pairwise (fun a b : ℚ × MessageData => a.1 ≤ b.1) := by
      refine hsorted.imp ?_
      intro a b h
      simpa [ltTs, not_lt] using h
    have hb := buildBuckets_lookup (insSort ltTs keyed) d
    unfold pipelineOk
    rw [hb]
    exact hmono.sublist (List.filter_sublist _)
  · -- stable ties
    intro q
    unfold pipelineOk
    rw [buildBuckets_lookup, List.filter_filter]
    have hcongr : ∀ p : ℚ × MessageData,
        (decide (p.1 = q) && decide (dayKeyQ p.1 = dayKeyQ q)) = decide (p.1 = q) := by
      intro p
      by_cases hpq : p.1 = q
      · simp [hpq]
      · simp [hpq]
    rw [List.filter_congr (fun p _ => hcongr p)]
    apply filter_insSort
    intro x y hx hy
    simp only [decide_eq_true_eq] at hx
    simp only [ltTs, decide_eq_true_eq] at hy
    simp only [decide_eq_false_iff_not]
    intro he
    rw [he, hx] at hy
    exact lt_irrefl q hy

/-- C7, witness: the ordering guarantees at a concrete three-message
input with a timestamp tie, instantiated at day 0 and timestamp 50. -/
theorem digest_ordering_guarantees_witness :
    wKeyed.map Prod.snd = wMsgs ∧
      wOut.dayOrder.Pairwise (fun a b => b < a) ∧
      (bucketLookup wOut.buckets 0).Pairwise (fun a b => a.1 ≤ b.1) ∧
      (bucketLookup wOut.buckets (dayKeyQ 50)).filter (fun p => decide (p.1 = 50)) =
        wKeyed.filter (fun p => decide (p.1 = 50)) := by
  have h := digest_ordering_guarantees wMsgs wKeyed wOut rfl rfl
  exact ⟨h.1, h.2.1, h.2.2.1 0, h.2.2.2 50⟩

/-- C9: the empty message list is not an error — generation returns the
fixed "no messages" sentinel, for every renderer. -/
theorem empty_input_renders_sentinel (render : String → Nat → PipelineOut → String)
    (channelName : String) (daysBack : Nat) :
    generate_final_digest_content render channelName [] daysBack =
      .ok noMessagesSentinel := rfl

/-! ## Helper lemmas: the user-name cache -/

/-- Unfolding equation for a lookup run. -/
theorem runLookups_cons (w : String) (resp : String → Option String)
    (rest : List (String × (String → Option String))) (st : SlackState) :
    runLookups ((w, resp) :: rest) st =
      ((w, (get_user_info resp st w).1) ::
          (runLookups rest (get_user_info resp st w).2).1,
        (runLookups rest (get_user_info resp st w).2).2) := rfl

/-- Appending a new entry does not change an existing entry's lookup. -/
theorem cacheLookup_append_of_some (c : List (String × String)) (u v w x : String)
    (h : cacheLookup c u = some v) : cacheLookup (c ++ [(w, x)]) u = some v := by
  induction c with
  | nil => cases h
  | cons kv rest ih =>
    obtain ⟨k, val⟩ := kv
    simp only [List.cons_append, cacheLookup] at h ⊢
    by_cases hk : k = u
    · rwa [if_pos hk] at h ⊢
    · rw [if_neg hk] at h ⊢
      exact ih h

/-- Appending an entry for an absent key makes it found. -/
theorem cacheLookup_append_self (c : List (String × String)) (w x : String)
    (h : cacheLookup c w = none) : cacheLookup (c ++ [(w, x)]) w = some x := by
  induction c with
  | nil => simp [cacheLookup]
  | cons kv rest ih =>
    obtain ⟨k, val⟩ := kv
    simp only [List.cons_append, cacheLookup] at h ⊢
    by_cases hk : k = w
    · rw [if_pos hk] at h
      cases h
    · rw [if_neg hk] at h ⊢
      exact ih h

/-- A cache hit returns the cached name and leaves the state alone. -/
theorem get_user_info_cached (resp : String → Option String) (st : SlackState)
    (uid name : String) (h : cacheLookup st.users_cache uid = some name) :
    get_user_info resp st uid = (name, st) := by
  unfold get_user_info
  rw [h]

/-- After any call, the id just asked about is cached with the returned
name. -/
theorem get_user_info_result_cached (resp : String → Option String) (st : SlackState)
    (uid : String) :
    cacheLookup (get_user_info resp st uid).2.users_cache uid =
      some (get_user_info resp st uid).1 := by
  unfold get_user_info
  cases hc : cacheLookup st.users_cache uid with
  | some name => simpa using hc
  | none =>
    cases hr : resp uid with
    | some name => simpa using cacheLookup_append_self st.users_cache uid name hc
    | none => simpa using cacheLookup_append_self st.users_cache uid "Unknown User" hc

/-- A cached entry survives any later call. -/
theorem get_user_info_preserves (resp : String → Option String) (st : SlackState)
    (uid u v : String) (h : cacheLookup st.users_cache u = some v) :
    cacheLookup (get_user_info resp st uid).2.users_cache u = some v := by
  unfold get_user_info
  cases hc : cacheLookup st.users_cache uid with
  | some name => simpa using h
  | none =>
    cases hr : resp uid with
    | some name => simpa using cacheLookup_append_of_some st.users_cache u v uid name h
    | none => simpa using cacheLookup_append_of_some st.users_cache u v uid "Unknown User" h

/-- The call log grows only on a cache miss. -/
theorem get_user_info_calls (resp : String → Option String) (st : SlackState)
    (uid : String) :
    (get_user_info resp st uid).2.calls =
      if (cacheLookup st.users_cache uid).isSome then st.calls
      else st.calls ++ [uid] := by
  unfold get_user_info
  cases hc : cacheLookup st.users_cache uid with
  | some name => simp
  | none => cases hr : resp uid <;> simp

/-- Once an id is cached with `v`, every later result for it is `v`. -/
theorem runLookups_results_of_cached
    (reqs : List (String × (String → Option String))) :
    ∀ (st : SlackState) (u v : String), cacheLookup st.users_cache u = some v →
      ∀ p ∈ (runLookups reqs st).1, p.1 = u → p.2 = v := by
  induction reqs with
  | nil =>
    intro st u v h p hp
    simp [runLookups] at hp
  | cons req rest ih =>
    obtain ⟨w, resp⟩ := req
    intro st u v h p hp hpu
    rw [runLookups_cons] at hp
    rcases List.mem_cons.mp hp with rfl | hp2
    · have hw : w = u := hpu
      subst hw
      show ((w, (get_user_info resp st w).1)).2 = v
      rw [get_user_info_cached resp st w v h]
    · exact ih _ u v (get_user_info_preserves resp st w u v h) p hp2 hpu

/-- Once an id is cached, no later call for it is logged. -/
theorem runLookups_calls_of_cached
    (reqs : List (String × (String → Option String))) :
    ∀ (st : SlackState) (u : String), (cacheLookup st.users_cache u).isSome = true →
      (runLookups reqs st).2.calls.count u = st.calls.count u := by
  induction reqs with
  | nil => intro st u h; rfl
  | cons req rest ih =>
    obtain ⟨w, resp⟩ := req
    intro st u h
    obtain ⟨v, hv⟩ := Option.isSome_iff_exists.mp h
    rw [runLookups_cons]
    have hpres : (cacheLookup (get_user_info resp st w).2.users_cache u).isSome = true := by
      rw [get_user_info_preserves resp st w u v hv]
      rfl
    rw [ih _ u hpres, get_user_info_calls]
    cases hc : (cacheLookup st.users_cache w).isSome
    · rw [if_neg Bool.false_ne_true]
      have hwu : ¬ (w == u) = true := by
        intro he
        rw [eq_of_beq he, hv] at hc
        cases hc
      rw [List.count_append]
      simp [List.count_singleton, hwu]
    · rw [if_pos rfl]

/-- Any id is sent to the API at most once more than it already was. -/
theorem runLookups_calls_bound (reqs : List (String × (String → Option String))) :
    ∀ (st : SlackState) (u : String),
      (runLookups reqs st).2.calls.count u ≤ st.calls.count u + 1 := by
  induction reqs with
  | nil => intro st u; exact Nat.le_succ _
  | cons req rest ih =>
    obtain ⟨w, resp⟩ := req
    intro st u
    rw [runLookups_cons]
    cases hc : (cacheLookup st.users_cache w).isSome
    · have hcalls : (get_user_info resp st w).2.calls = st.calls ++ [w] := by
        rw [get_user_info_calls, hc, if_neg Bool.false_ne_true]
      by_cases hwu : w = u
      · subst hwu
        have hcached :
            (cacheLookup (get_user_info resp st w).2.users_cache w).isSome = true := by
          rw [get_user_info_result_cached]
          rfl
        rw [runLookups_calls_of_cached rest _ w hcached, hcalls, List.count_append]
        simp
      · have hcount : (get_user_info resp st w).2.calls.count u = st.calls.count u := by
          rw [hcalls, List.count_append]
          have hbeq : ¬ (w == u) = true := fun he => hwu (eq_of_beq he)
          simp [List.count_singleton, hbeq]
        calc (runLookups rest (get_user_info resp st w).2).2.calls.count u
            ≤ (get_user_info resp st w).2.calls.count u + 1 := ih _ u
          _ = st.calls.count u + 1 := by rw [hcount]
    · have hcalls : (get_user_info resp st w).2.calls = st.calls := by
        rw [get_user_info_calls, hc, if_pos rfl]
      calc (runLookups rest (get_user_info resp st w).2).2.calls.count u
          ≤ (get_user_info resp st w).2.calls.count u + 1 := ih _ u
        _ = st.calls.count u + 1 := by rw [hcalls]

/-- A list whose members all equal `v` is pairwise-equal. -/
theorem pairwise_eq_of_forall {l : List String} {v : String} (h : ∀ x ∈ l, x = v) :
    l.Pairwise (fun a b => a = b) := by
  induction l with
  | nil => exact List.Pairwise.nil
  | cons x xs ih =>
    refine List.Pairwise.cons ?_ (ih fun y hy => h y (List.mem_cons_of_mem _ hy))
    intro y hy
    rw [h x (List.mem_cons_self _ _), h y (List.mem_cons_of_mem _ hy)]

/-- All results returned for one id agree, from any state. -/
theorem runLookups_results_pairwise
    (reqs : List (String × (String → Option String))) :
    ∀ (st : SlackState) (u : String),
      ((((runLookups reqs st).1).filter (fun p => p.1 == u)).map Prod.snd).Pairwise
        (fun a b => a = b) := by
  induction reqs with
  | nil => intro st u; simp [runLookups]
  | cons req rest ih =>
    obtain ⟨w, resp⟩ := req
    intro st u
    rw [runLookups_cons]
    cases hw : (w == u)
    · simpa [List.filter_cons, hw] using ih (get_user_info resp st w).2 u
    · have hwu : w = u := eq_of_beq hw
      subst hwu
      have hcache : cacheLookup (get_user_info resp st w).2.users_cache w =
          some (get_user_info resp st w).1 := get_user_info_result_cached resp st w
      have hstep : ((w, (get_user_info resp st w).1) ::
            (runLookups rest (get_user_info resp st w).2).1).filter
              (fun p => p.1 == w) =
          (w, (get_user_info resp st w).1) ::
            ((runLookups rest (get_user_info resp st w).2).1.filter
              (fun p => p.1 == w)) := by
        simp [List.filter_cons]
      rw [hstep, List.map_cons]
      have hall : ∀ b ∈ ((runLookups rest (get_user_info resp st w).2).1.filter
          (fun p => p.1 == w)).map Prod.snd, b = (get_user_info resp st w).1 := by
        intro b hb
        obtain ⟨p, hpmem, hpb⟩ := List.mem_map.mp hb
        obtain ⟨hpin, hppred⟩ := List.mem_filter.mp hpmem
        rw [← hpb]
        exact runLookups_results_of_cached rest _ w (get_user_info resp st w).1 hcache
          p hpin (eq_of_beq hppred)
      exact List.Pairwise.cons (fun b hb => (hall b hb).symm) (pairwise_eq_of_forall hall)

/-- C10: from a fresh process cache, a run of lookups consults the API
at most once per requester id, and every result returned for one id is
the same string — the first call's outcome, the failure sentinel
included, is what every later call gets back. -/
theorem user_lookup_cached_once (reqs : List (String × (String → Option String)))
    (u : String) :
    (runLookups reqs { users_cache := [], calls := [] }).2.calls.count u ≤ 1 ∧
      (resultsFor reqs u).Pairwise (fun a b => a = b) := by
  constructor
  · have h := runLookups_calls_bound reqs { users_cache := [], calls := [] } u
    simpa using h
  · exact runLookups_results_pairwise reqs { users_cache := [], calls := [] } u

end WeeklyDigest
